import Mathlib

/-!
Verification development for the scrunked repository: a browser tool that
loads a local audio file and applies real-time effects. The embedded core is
the parameter-mapping / state-synchronization layer:

  * `src/src/lib.ts` — the scale mapper (`getScaleValue`, `getValueFromScale`)
    and the display formatter (`humanFormat`);
  * the top-level app component — the `Settings` record, the
    `handleFileChange` handler, the `syncPlayerSettings` effect, and the
    slider / checkbox update handlers.

Numeric values are modelled over `ℝ` (the scale mapper raises to the real
power 2.5) except `humanFormat`, which is modelled over `ℚ` so that its
rounding is executable. Files are abstract ids (`ℕ`); the engine-reported
buffer duration is an external parameter `durationOf : ℕ → ℝ`.
-/

namespace Scrunked

/-! ## Scale mapper (src/src/lib.ts) -/

/-- Embeds `const SCALE_POWER = 2.5` (src/src/lib.ts line 1). -/
noncomputable def SCALE_POWER : ℝ := 2.5

/-- Embeds `const getScaleValue = (value) => Math.pow(Math.abs(value), 1 / SCALE_POWER)`
(src/src/lib.ts line 10), over the reals. -/
noncomputable def getScaleValue (value : ℝ) : ℝ := |value| ^ (1 / SCALE_POWER)

/-- Embeds `const getValueFromScale = (value) => Math.pow(value, SCALE_POWER)`
(src/src/lib.ts line 11), over the reals. -/
noncomputable def getValueFromScale (value : ℝ) : ℝ := value ^ SCALE_POWER

/-- Renders the JS number `n / 10` the way JS string interpolation prints it
for the one-decimal kilohertz branch of `humanFormat`: an integer prints with
no decimal point, otherwise one decimal digit is kept. -/
def formatTenths (n : ℤ) : String :=
  if n % 10 = 0 then toString (n / 10)
  else toString (n / 10) ++ "." ++ toString (n % 10)

/-- Embeds `humanFormat` (src/src/lib.ts lines 3-7): values over 9999 render as whole
kilohertz with a "K" suffix, values over 999 render to one decimal kilohertz
with a "K" suffix, otherwise the rounded integer is returned as a number.
`Math.round` is `round` (round half toward +∞) and the string branches are
`Sum.inr`, the numeric branch `Sum.inl`. -/
def humanFormat (value : ℚ) : ℤ ⊕ String :=
  if 9999 < value then Sum.inr (toString (round (value / 1000)) ++ "K")
  else if 999 < value then Sum.inr (formatTenths (round (value / 100)) ++ "K")
  else Sum.inl (round value)

/-! ## Data model and state machine (app component)

The embedding follows the `part_002` variant of the app component (the one
with `loop` and `duration` in `Settings`); `src/src/index.tsx` differs only in
lacking those two fields and the waveform. The `syncPlayerSettings` effect
suspends at `await player.load(url)`, so it is split into a synchronous
prefix (`syncPlayerSettingsStart`, which runs up to the suspension point or to
completion when no file is pending) and a resumption
(`syncPlayerSettingsResume`, the code after the `await`). Pending resumptions
are queued in `Sys.pending`; a `resolveLoad i` event runs resumption `i`,
which models the asynchronous completion order of in-flight loads. -/

/-- Embeds `const FILTER_MAX = 22_000`. -/
noncomputable def FILTER_MAX : ℝ := 22000

/-- The lifecycle flag: `state: "ready" | "init"`. -/
inductive Lifecycle where
  | ready
  | init
deriving DecidableEq

/-- The `Settings` record. Files are abstract ids. -/
structure Settings where
  filterCutoff : ℝ
  file : Option ℕ
  duration : Option ℝ
  nextFile : Option ℕ
  speed : ℝ
  loop : Bool
  state : Lifecycle

/-- The external audio engine (Tone.Player + Tone.Filter), as far as the
synchronization layer drives it: whether `player.chain` has been called, the
filter frequency, the playback rate and loop flag of the player, the loaded buffer
and whether the transport is started. -/
structure Engine where
  chained : Bool
  frequency : ℝ
  playbackRate : ℝ
  loop : Bool
  buffer : Option ℕ
  playing : Bool

/-- A suspended `syncPlayerSettings` invocation: the settings it closed over
and the file whose load it is awaiting. -/
structure LoadCont where
  snapshot : Settings
  file : ℕ

/-- The whole system: the Settings state, the engine, the queue of suspended
load continuations, and the last blob handed to the waveform widget. -/
structure Sys where
  settings : Settings
  engine : Engine
  pending : List LoadCont
  waveform : Option ℕ

/-- The initial `useState` value: filter fully open, speed 1, loop on, no
file, lifecycle `"init"`. -/
noncomputable def initialSettings : Settings :=
  { filterCutoff := FILTER_MAX, speed := 1, loop := true,
    file := none, duration := none, nextFile := none, state := Lifecycle.init }

/-- The freshly constructed engine: `new Tone.Player()` (stopped, no buffer,
default rate 1, loop off) and `new Tone.Filter(settings.filterCutoff, ...)`. -/
noncomputable def initialEngine : Engine :=
  { chained := false, frequency := FILTER_MAX, playbackRate := 1,
    loop := false, buffer := none, playing := false }

/-- The system at mount. -/
noncomputable def initialSys : Sys :=
  { settings := initialSettings, engine := initialEngine,
    pending := [], waveform := none }

/-- Embeds `handleFileChange`: if the input element yields no file, throw
`"missing file at upload time"`; otherwise merge `{ nextFile: file }`. -/
def handleFileChange (files : Option ℕ) (s : Settings) : Except String Settings :=
  match files with
  | none => Except.error "missing file at upload time"
  | some f => Except.ok { s with nextFile := some f }

/-- The unconditional parameter push at the end of `syncPlayerSettings`:
`filter.set({ frequency: settings.filterCutoff })` and
`player.set({ playbackRate: settings.speed, loop: settings.loop })`. -/
def pushParams (s : Settings) (e : Engine) : Engine :=
  { e with frequency := s.filterCutoff, playbackRate := s.speed, loop := s.loop }

/-- The synchronous prefix of `syncPlayerSettings`: on `"init"` wire the chain
(`player.chain(filter, comp, Tone.Destination)`), flip the lifecycle to
`"ready"` and return; on `"ready"` with a pending file, hand the blob to the
waveform, stop the player and suspend at `await player.load(url)` (queueing
the continuation); otherwise push the parameters and finish. -/
def syncPlayerSettingsStart (σ : Sys) : Sys :=
  if σ.settings.state = Lifecycle.init then
    { σ with settings := { σ.settings with state := Lifecycle.ready },
             engine := { σ.engine with chained := true } }
  else
    match σ.settings.nextFile with
    | some f =>
        { σ with waveform := some f,
                 engine := { σ.engine with playing := false },
                 pending := σ.pending ++ [⟨σ.settings, f⟩] }
    | none => { σ with engine := pushParams σ.settings σ.engine }

/-- The resumption of a suspended `syncPlayerSettings` invocation, i.e. the
code after `await player.load(url)`: the load completes (the buffer becomes
the awaited file), `player.start()`, then
`set(mergeSettings({ file: settings.nextFile, nextFile: undefined,
duration: player.buffer.duration }))` merged into the *current* settings, and
finally the parameter push — from the *snapshot* the invocation closed over. -/
def syncPlayerSettingsResume (durationOf : ℕ → ℝ) (i : ℕ) (σ : Sys) : Sys :=
  match σ.pending[i]? with
  | none => σ
  | some c =>
      let merged : Settings :=
        { σ.settings with file := some c.file, nextFile := none,
                          duration := some (durationOf c.file) }
      let started : Engine := { σ.engine with buffer := some c.file, playing := true }
      { settings := merged, engine := pushParams c.snapshot started,
        pending := σ.pending.eraseIdx i, waveform := σ.waveform }

/-- Embeds `handlePlayPauseToggle`: stop if started, else `player.start(0)`. -/
def handlePlayPauseToggle (e : Engine) : Engine :=
  if e.playing then { e with playing := false } else { e with playing := true }

/-- The discrete events driving the system: a file selection with a present
file, the speed slider, the filter slider (carrying the display value), the
loop checkbox, the play/pause button, a (throttled) invocation of the
synchronization effect, and the completion of in-flight load `i`. -/
inductive Event where
  | fileChange (f : ℕ)
  | setSpeed (v : ℝ)
  | setFilter (d : ℝ)
  | setLoop (b : Bool)
  | toggle
  | syncStart
  | resolveLoad (i : ℕ)

/-- One step of the system. Slider handlers merge the mapped value
(`set(mergeSettings({ filterCutoff: getValueFromScale(value) }))`, etc.); the
checkbox spreads the current settings with the new flag. -/
noncomputable def step (durationOf : ℕ → ℝ) : Event → Sys → Sys
  | Event.fileChange f, σ =>
      match handleFileChange (some f) σ.settings with
      | Except.ok s => { σ with settings := s }
      | Except.error _ => σ
  | Event.setSpeed v, σ => { σ with settings := { σ.settings with speed := v } }
  | Event.setFilter d, σ =>
      { σ with settings := { σ.settings with filterCutoff := getValueFromScale d } }
  | Event.setLoop b, σ => { σ with settings := { σ.settings with loop := b } }
  | Event.toggle, σ => { σ with engine := handlePlayPauseToggle σ.engine }
  | Event.syncStart, σ => syncPlayerSettingsStart σ
  | Event.resolveLoad i, σ => syncPlayerSettingsResume durationOf i σ

/-- Run a list of events in order. -/
noncomputable def run (durationOf : ℕ → ℝ) (events : List Event) (σ : Sys) : Sys :=
  events.foldl (fun s e => step durationOf e s) σ

/-- Events the UI can actually emit: the speed slider is bounded by its
`min`/`max` of 0.1 and 2, the filter slider by its `min` of 1 and its `max` of
`getScaleValue(22000)`. -/
def ValidEvent : Event → Prop
  | Event.setSpeed v => 0.1 ≤ v ∧ v ≤ 2
  | Event.setFilter d => 1 ≤ d ∧ d ≤ getScaleValue FILTER_MAX
  | _ => True

/-- States reachable from mount through valid events. -/
inductive Reachable (durationOf : ℕ → ℝ) : Sys → Prop where
  | initial : Reachable durationOf initialSys
  | next {σ e} : Reachable durationOf σ → ValidEvent e →
      Reachable durationOf (step durationOf e σ)

/-! ## Concrete instances used by witnesses -/

/-- A trivial engine-reported duration assignment. -/
noncomputable def dur0 : ℕ → ℝ := fun _ => 0

/-- The state right after the first (wiring) invocation of the effect. -/
noncomputable def sysReady : Sys := step dur0 Event.syncStart initialSys

/-- The state `sysReady` after the user has selected file 7. -/
noncomputable def sysReadyNext7 : Sys := step dur0 (Event.fileChange 7) sysReady

/-! ### Basic facts about the scale mapper -/

lemma SCALE_POWER_pos : 0 < SCALE_POWER := by
  unfold SCALE_POWER; norm_num

lemma one_div_SCALE_POWER_pos : 0 < 1 / SCALE_POWER := by
  have := SCALE_POWER_pos; positivity

/-- On nonnegative inputs the two scale maps are mutually inverse. -/
lemma roundtrip_nonneg (v : ℝ) (hv : 0 ≤ v) :
    getValueFromScale (getScaleValue v) = v := by
  unfold getValueFromScale getScaleValue
  rw [abs_of_nonneg hv, ← Real.rpow_mul hv]
  have hp : 1 / SCALE_POWER * SCALE_POWER = 1 := by
    have := SCALE_POWER_pos
    field_simp
  rw [hp, Real.rpow_one]

lemma getScaleValue_strictMono {x y : ℝ} (hx : 0 < x) (hxy : x < y) :
    getScaleValue x < getScaleValue y := by
  unfold getScaleValue
  rw [abs_of_pos hx, abs_of_pos (hx.trans hxy)]
  exact Real.rpow_lt_rpow hx.le hxy one_div_SCALE_POWER_pos

lemma getScaleValue_neg (x : ℝ) : getScaleValue (-x) = getScaleValue x := by
  unfold getScaleValue
  rw [abs_neg]

lemma one_le_getScaleValue {x : ℝ} (hx : 1 ≤ x) : 1 ≤ getScaleValue x := by
  unfold getScaleValue
  calc (1 : ℝ) = 1 ^ (1 / SCALE_POWER) := (Real.one_rpow _).symm
    _ ≤ |x| ^ (1 / SCALE_POWER) := by
        refine Real.rpow_le_rpow (by norm_num) ?_ one_div_SCALE_POWER_pos.le
        calc (1 : ℝ) ≤ x := hx
          _ ≤ |x| := le_abs_self x

/-- The forward image of a display value in `[1, getScaleValue M]` under
`getValueFromScale` lands in `[1, M]` for `1 ≤ M`. -/
lemma getValueFromScale_mem {d M : ℝ} (hM : 0 ≤ M)
    (h1 : 1 ≤ d) (h2 : d ≤ getScaleValue M) :
    1 ≤ getValueFromScale d ∧ getValueFromScale d ≤ M := by
  constructor
  · unfold getValueFromScale
    calc (1 : ℝ) = 1 ^ SCALE_POWER := (Real.one_rpow _).symm
      _ ≤ d ^ SCALE_POWER := Real.rpow_le_rpow (by norm_num) h1 SCALE_POWER_pos.le
  · have hd0 : 0 ≤ d := le_trans (by norm_num) h1
    calc getValueFromScale d ≤ getValueFromScale (getScaleValue M) := by
          unfold getValueFromScale
          exact Real.rpow_le_rpow hd0 h2 SCALE_POWER_pos.le
      _ = M := roundtrip_nonneg M hM

lemma getElem?_append_length {α : Type} (l : List α) (a : α) :
    (l ++ [a])[l.length]? = some a := by
  induction l with
  | nil => rfl
  | cons x xs ih => simpa using ih

/-! ## Claim theorems -/

/-- C2: for every `v` in `[10, 22000]`, `getValueFromScale (getScaleValue v) = v` —
exactly, over the ideal reals, hence in particular within floating-point
tolerance. -/
theorem C2_scale_roundtrip (v : ℝ) (h1 : 10 ≤ v) (h2 : v ≤ 22000) :
    getValueFromScale (getScaleValue v) = v :=
  roundtrip_nonneg v (le_trans (by norm_num) h1)

/-- C2 witness, at `v = 32`. -/
theorem C2_scale_roundtrip_witness :
    (10 : ℝ) ≤ 32 ∧ (32 : ℝ) ≤ 22000 ∧ getValueFromScale (getScaleValue 32) = 32 :=
  ⟨by norm_num, by norm_num, C2_scale_roundtrip 32 (by norm_num) (by norm_num)⟩

/-- C6: `getScaleValue` is strictly monotonically increasing over positive
inputs. -/
theorem C6_getScaleValue_mono (x y : ℝ) (hx : 0 < x) (hxy : x < y) :
    getScaleValue x < getScaleValue y :=
  getScaleValue_strictMono hx hxy

/-- C6 witness, at `x = 1`, `y = 32`. -/
theorem C6_getScaleValue_mono_witness :
    (0 : ℝ) < 1 ∧ (1 : ℝ) < 32 ∧ getScaleValue 1 < getScaleValue 32 :=
  ⟨by norm_num, by norm_num, C6_getScaleValue_mono 1 32 (by norm_num) (by norm_num)⟩

/-- C10: `getScaleValue` is an even total function (`|·|` is applied before the
power), `getValueFromScale` inverts it on nonnegative inputs, and the pair is
not mutually inverse on negative inputs (witness `-32`). -/
theorem C10_getScaleValue_even_inverse :
    (∀ x : ℝ, getScaleValue (-x) = getScaleValue x) ∧
    (∀ x : ℝ, 0 ≤ x → getValueFromScale (getScaleValue x) = x) ∧
    getValueFromScale (getScaleValue (-32)) ≠ -32 := by
  refine ⟨getScaleValue_neg, fun x hx => roundtrip_nonneg x hx, ?_⟩
  rw [show ((-32 : ℝ)) = -(32 : ℝ) by norm_num, getScaleValue_neg,
    roundtrip_nonneg 32 (by norm_num)]
  norm_num

/-- C10 witness: the even property instantiated at `x = 3`. -/
theorem C10_getScaleValue_even_inverse_witness :
    getScaleValue (-3) = getScaleValue 3 :=
  C10_getScaleValue_even_inverse.1 3

/-- C7: `humanFormat` returns the rounded integer for values at most 999, the
one-decimal-kilohertz string for values over 999 and at most 9999, and the
whole-kilohertz string for values over 9999; in particular
`humanFormat 500 = 500`, `humanFormat 1500 = "1.5K"`,
`humanFormat 12000 = "12K"`. -/
theorem C7_humanFormat_spec :
    (∀ v : ℚ, v ≤ 999 → humanFormat v = Sum.inl (round v)) ∧
    (∀ v : ℚ, 999 < v → v ≤ 9999 →
      humanFormat v = Sum.inr (formatTenths (round (v / 100)) ++ "K")) ∧
    (∀ v : ℚ, 9999 < v → humanFormat v = Sum.inr (toString (round (v / 1000)) ++ "K")) ∧
    humanFormat 500 = Sum.inl 500 ∧
    humanFormat 1500 = Sum.inr "1.5K" ∧
    humanFormat 12000 = Sum.inr "12K" := by
  refine ⟨?_, ?_, ?_, ?_, ?_, ?_⟩
  · intro v hv
    have h1 : ¬(9999 < v) := by linarith
    have h2 : ¬(999 < v) := by linarith
    simp [humanFormat, h1, h2]
  · intro v hv1 hv2
    have h1 : ¬(9999 < v) := by linarith
    simp [humanFormat, h1, hv1]
  · intro v hv
    simp [humanFormat, hv]
  · norm_num [humanFormat, formatTenths, round_eq] <;> rfl
  · norm_num [humanFormat, formatTenths, round_eq] <;> rfl
  · norm_num [humanFormat, formatTenths, round_eq] <;> rfl

/-- C7 witness: the first branch instantiated at `v = 500`. -/
theorem C7_humanFormat_spec_witness : humanFormat 500 = Sum.inl (round (500 : ℚ)) :=
  C7_humanFormat_spec.1 500 (by norm_num)

/-- C9: `handleFileChange` with no file available fails fast with
`"missing file at upload time"` and produces no settings update; with a file
present it only sets `nextFile`. -/
theorem C9_handleFileChange_spec :
    (∀ s : Settings,
      handleFileChange none s = Except.error "missing file at upload time") ∧
    (∀ (f : ℕ) (s : Settings),
      handleFileChange (some f) s = Except.ok { s with nextFile := some f }) :=
  ⟨fun _ => rfl, fun _ _ => rfl⟩

/-- C9 witness: both branches at the initial settings. -/
theorem C9_handleFileChange_spec_witness :
    handleFileChange none initialSettings
      = Except.error "missing file at upload time" :=
  C9_handleFileChange_spec.1 initialSettings

/-- C3: the lifecycle flag starts at `"init"`; the first invocation of the
synchronization effect on an `"init"` state wires the chain, flips the flag to
`"ready"` and returns, changing nothing else (no file-load logic); no event
other than a sync invocation ever touches the flag; and from any `"ready"`
state every event leaves the flag `"ready"` — the transition happens exactly
once and never reverts. -/
theorem C3_lifecycle_one_way (durationOf : ℕ → ℝ) (σ : Sys) (e : Event) :
    initialSys.settings.state = Lifecycle.init ∧
    (σ.settings.state = Lifecycle.init →
      step durationOf Event.syncStart σ =
        { σ with settings := { σ.settings with state := Lifecycle.ready },
                 engine := { σ.engine with chained := true } }) ∧
    (e ≠ Event.syncStart → (step durationOf e σ).settings.state = σ.settings.state) ∧
    (σ.settings.state = Lifecycle.ready →
      (step durationOf e σ).settings.state = Lifecycle.ready) := by
  refine ⟨rfl, ?_, ?_, ?_⟩
  · intro h
    simp [step, syncPlayerSettingsStart, h]
  · intro hne
    cases e with
    | fileChange f => simp [step, handleFileChange]
    | setSpeed v => simp [step]
    | setFilter d => simp [step]
    | setLoop b => simp [step]
    | toggle => simp [step]
    | syncStart => exact absurd rfl hne
    | resolveLoad i =>
        cases hp : σ.pending[i]? with
        | none => simp [step, syncPlayerSettingsResume, hp]
        | some c => simp [step, syncPlayerSettingsResume, hp]
  · intro h
    cases e with
    | fileChange f => simp [step, handleFileChange, h]
    | setSpeed v => simp [step, h]
    | setFilter d => simp [step, h]
    | setLoop b => simp [step, h]
    | toggle => simp [step, h]
    | syncStart =>
        cases hn : σ.settings.nextFile with
        | none => simp [step, syncPlayerSettingsStart, h, hn, pushParams]
        | some f => simp [step, syncPlayerSettingsStart, h, hn]
    | resolveLoad i =>
        cases hp : σ.pending[i]? with
        | none => simp [step, syncPlayerSettingsResume, hp, h]
        | some c => simp [step, syncPlayerSettingsResume, hp, h]

/-- C3 witness: after the first sync invocation the flag is `"ready"` and a
subsequent file selection leaves it `"ready"`. -/
theorem C3_lifecycle_one_way_witness :
    (step dur0 (Event.fileChange 5) sysReady).settings.state = Lifecycle.ready :=
  (C3_lifecycle_one_way dur0 sysReady (Event.fileChange 5)).2.2.2 rfl

/-- C4: on a `"ready"` invocation of the effect with no pending file, the
filter frequency, playback rate and loop flag of the engine become exactly
the settings values of the invocation; on the completion of a suspended `"ready"`
invocation, they become exactly the values of the settings snapshot that
invocation closed over. In both cases the push is unconditional. -/
theorem C4_ready_pushes_params (durationOf : ℕ → ℝ) (σ : Sys) (i : ℕ) (c : LoadCont) :
    (σ.settings.state = Lifecycle.ready → σ.settings.nextFile = none →
      ((step durationOf Event.syncStart σ).engine.frequency = σ.settings.filterCutoff ∧
       (step durationOf Event.syncStart σ).engine.playbackRate = σ.settings.speed ∧
       (step durationOf Event.syncStart σ).engine.loop = σ.settings.loop)) ∧
    (σ.pending[i]? = some c →
      ((step durationOf (Event.resolveLoad i) σ).engine.frequency = c.snapshot.filterCutoff ∧
       (step durationOf (Event.resolveLoad i) σ).engine.playbackRate = c.snapshot.speed ∧
       (step durationOf (Event.resolveLoad i) σ).engine.loop = c.snapshot.loop)) := by
  constructor
  · intro h hn
    refine ⟨?_, ?_, ?_⟩ <;> simp [step, syncPlayerSettingsStart, h, hn, pushParams]
  · intro hp
    refine ⟨?_, ?_, ?_⟩ <;> simp [step, syncPlayerSettingsResume, hp, pushParams]

/-- C4 witness: a second sync invocation right after wiring pushes the default
cutoff into the filter. -/
theorem C4_ready_pushes_params_witness :
    (step dur0 Event.syncStart sysReady).engine.frequency
      = sysReady.settings.filterCutoff :=
  ((C4_ready_pushes_params dur0 sysReady 0 ⟨initialSettings, 0⟩).1 rfl rfl).1

/-- C5: a `"ready"` invocation with a pending file stops playback and suspends
awaiting the load; when that load completes, the player holds the new file and
is started, and the merged settings promote the pending file to `file`, clear
`nextFile` and record the engine-reported duration. -/
theorem C5_nextFile_load (durationOf : ℕ → ℝ) (σ : Sys) (f : ℕ)
    (hready : σ.settings.state = Lifecycle.ready)
    (hnext : σ.settings.nextFile = some f) :
    (step durationOf Event.syncStart σ).engine.playing = false ∧
    (step durationOf Event.syncStart σ).pending = σ.pending ++ [⟨σ.settings, f⟩] ∧
    (step durationOf (Event.resolveLoad σ.pending.length)
        (step durationOf Event.syncStart σ)).engine.buffer = some f ∧
    (step durationOf (Event.resolveLoad σ.pending.length)
        (step durationOf Event.syncStart σ)).engine.playing = true ∧
    (step durationOf (Event.resolveLoad σ.pending.length)
        (step durationOf Event.syncStart σ)).settings.file = some f ∧
    (step durationOf (Event.resolveLoad σ.pending.length)
        (step durationOf Event.syncStart σ)).settings.nextFile = none ∧
    (step durationOf (Event.resolveLoad σ.pending.length)
        (step durationOf Event.syncStart σ)).settings.duration
      = some (durationOf f) := by
  have e1 : step durationOf Event.syncStart σ =
      { σ with waveform := some f,
               engine := { σ.engine with playing := false },
               pending := σ.pending ++ [⟨σ.settings, f⟩] } := by
    simp [step, syncPlayerSettingsStart, hready, hnext]
  rw [e1]
  refine ⟨rfl, rfl, ?_, ?_, ?_, ?_, ?_⟩ <;>
    simp [step, syncPlayerSettingsResume, getElem?_append_length, pushParams]

/-- C5 witness: selecting file 7 in the ready state and letting the effect run
and its load resolve ends with file 7 loaded, playing and promoted. -/
theorem C5_nextFile_load_witness :
    (step dur0 (Event.resolveLoad sysReadyNext7.pending.length)
        (step dur0 Event.syncStart sysReadyNext7)).settings.file = some 7 :=
  (C5_nextFile_load dur0 sysReadyNext7 7 rfl rfl).2.2.2.2.1

/-- C1 counterexample: the `min` of the filter slider is 1, and dragging it there
is a valid UI event; it merges `filterCutoff = getValueFromScale 1 = 1`, so a
reachable state has `filterCutoff = 1`, outside the claimed range
`[10, 22000]`. -/
theorem C1_cutoff_below_range :
    Reachable dur0 (step dur0 (Event.setFilter 1) sysReady) ∧
    (step dur0 (Event.setFilter 1) sysReady).settings.filterCutoff = 1 ∧
    ¬(10 ≤ (step dur0 (Event.setFilter 1) sysReady).settings.filterCutoff) := by
  have hval : ValidEvent (Event.setFilter 1) := by
    refine ⟨le_refl 1, one_le_getScaleValue ?_⟩
    unfold FILTER_MAX; norm_num
  have hc : (step dur0 (Event.setFilter 1) sysReady).settings.filterCutoff = 1 := by
    show getValueFromScale 1 = 1
    unfold getValueFromScale
    exact Real.one_rpow _
  refine ⟨?_, hc, ?_⟩
  · exact Reachable.next (Reachable.next Reachable.initial True.intro) hval
  · rw [hc]; norm_num

/-- C1 amended: in every reachable state, `filterCutoff` lies in `[1, 22000]`
(the lower end of the slider maps to 1, not 10); the initial value is the
maximum 22000. -/
theorem C1_filterCutoff_range_amended (durationOf : ℕ → ℝ) (σ : Sys)
    (h : Reachable durationOf σ) :
    initialSys.settings.filterCutoff = 22000 ∧
    1 ≤ σ.settings.filterCutoff ∧ σ.settings.filterCutoff ≤ 22000 := by
  refine ⟨by norm_num [initialSys, initialSettings, FILTER_MAX], ?_⟩
  induction h with
  | initial =>
      constructor <;> norm_num [initialSys, initialSettings, FILTER_MAX]
  | @next σ e hr hv ih =>
      cases e with
      | fileChange f => simpa [step, handleFileChange] using ih
      | setSpeed v => simpa [step] using ih
      | setFilter d =>
          obtain ⟨h1, h2⟩ := hv
          have hmem := getValueFromScale_mem (M := FILTER_MAX)
            (by unfold FILTER_MAX; norm_num) h1 h2
          have hM : FILTER_MAX = (22000 : ℝ) := rfl
          rw [hM] at hmem
          simpa [step] using hmem
      | setLoop b => simpa [step] using ih
      | toggle => simpa [step] using ih
      | syncStart =>
          by_cases hs : σ.settings.state = Lifecycle.init
          · simpa [step, syncPlayerSettingsStart, hs] using ih
          · cases hn : σ.settings.nextFile with
            | none => simpa [step, syncPlayerSettingsStart, hs, hn, pushParams] using ih
            | some f => simpa [step, syncPlayerSettingsStart, hs, hn] using ih
      | resolveLoad i =>
          cases hp : σ.pending[i]? with
          | none => simpa [step, syncPlayerSettingsResume, hp] using ih
          | some c => simpa [step, syncPlayerSettingsResume, hp] using ih

/-- C1 amended witness: the initial state. -/
theorem C1_filterCutoff_range_amended_witness :
    initialSys.settings.filterCutoff = 22000 ∧
    1 ≤ initialSys.settings.filterCutoff ∧
    initialSys.settings.filterCutoff ≤ 22000 :=
  C1_filterCutoff_range_amended dur0 initialSys Reachable.initial

lemma reachable_run (durationOf : ℕ → ℝ) (events : List Event) (σ : Sys)
    (h : Reachable durationOf σ) (hv : ∀ e ∈ events, ValidEvent e) :
    Reachable durationOf (run durationOf events σ) := by
  induction events generalizing σ with
  | nil => exact h
  | cons e es ih =>
      exact ih (step durationOf e σ) (Reachable.next h (hv e (by simp)))
        (fun x hx => hv x (by simp [hx]))

/-- C8: the race the spec flags as a defect, executed concretely. File 1 (A)
is requested and its load suspends; file 2 (B) is requested and its load also
suspends; the load of B resolves first, then the stale completion of A lands
last. Once no work is pending, the Settings record has `file = A`, the player
holds the buffer of A and is playing — B, the latest requested file, did not
win. -/
theorem C8_race_stale_load_wins :
    Reachable dur0 (run dur0
      [Event.syncStart, Event.fileChange 1, Event.syncStart, Event.fileChange 2,
       Event.syncStart, Event.resolveLoad 1, Event.resolveLoad 0] initialSys) ∧
    (run dur0
      [Event.syncStart, Event.fileChange 1, Event.syncStart, Event.fileChange 2,
       Event.syncStart, Event.resolveLoad 1, Event.resolveLoad 0] initialSys).pending = [] ∧
    (run dur0
      [Event.syncStart, Event.fileChange 1, Event.syncStart, Event.fileChange 2,
       Event.syncStart, Event.resolveLoad 1, Event.resolveLoad 0] initialSys).settings.file
      = some 1 ∧
    (run dur0
      [Event.syncStart, Event.fileChange 1, Event.syncStart, Event.fileChange 2,
       Event.syncStart, Event.resolveLoad 1, Event.resolveLoad 0] initialSys).engine.buffer
      = some 1 ∧
    (run dur0
      [Event.syncStart, Event.fileChange 1, Event.syncStart, Event.fileChange 2,
       Event.syncStart, Event.resolveLoad 1, Event.resolveLoad 0] initialSys).engine.playing
      = true := by
  refine ⟨?_, rfl, rfl, rfl, rfl⟩
  refine reachable_run dur0 _ initialSys Reachable.initial ?_
  intro e he
  simp only [List.mem_cons, List.not_mem_nil, or_false] at he
  rcases he with rfl | rfl | rfl | rfl | rfl | rfl | rfl <;> exact True.intro
